import Mathlib

/-!
Shallow embedding of scripts/download_incr_DB.py (Zilliqa incremental-DB
downloader) and proofs about its behaviour.

Strings are modelled as lists of characters (Str), bytes as natural numbers
below 256.  External effects (HTTP requests, the S3 listing server, the
filesystem) are scripted: each definition takes the outcomes of its external
calls as explicit arguments, and the control flow of the Python code is
translated statement by statement.  Python exceptions and process exits are
modelled by the PyFlow type: SystemExit (raised by exit) and os._exit both
escape an "except Exception" handler, so both are modelled as terminate.

While loops are modelled with an explicit fuel argument that provably
dominates the number of iterations the Python loop can make.
-/

set_option maxRecDepth 8000

namespace DownloadIncrDB

abbrev Str := List Char

/-- Outcome of running a piece of Python code: a normal return value, an
exception that "except Exception" can catch, or process termination with an
exit code (SystemExit from exit, or os._exit, neither of which is caught by
"except Exception"). -/
inductive PyFlow (α : Type) where
  | val (a : α)
  | exc
  | terminate (code : Nat)
deriving DecidableEq

/-! ## MD5 (hashlib.md5), needed by calculate_multipart_etag

A byte-level implementation of MD5 over lists of naturals (each byte < 256),
with 32-bit words represented as naturals reduced mod 2^32. -/

/-- Left-rotation of a 32-bit word. -/
def rotl32 (x n : Nat) : Nat :=
  ((x <<< n) ||| (x >>> (32 - n))) % 2 ^ 32

/-- Bitwise complement of a 32-bit word. -/
def bnot32 (x : Nat) : Nat :=
  x ^^^ (2 ^ 32 - 1)

/-- The 64 MD5 sine-derived round constants. -/
def md5K : List Nat :=
  [0xd76aa478, 0xe8c7b756, 0x242070db, 0xc1bdceee,
   0xf57c0faf, 0x4787c62a, 0xa8304613, 0xfd469501,
   0x698098d8, 0x8b44f7af, 0xffff5bb1, 0x895cd7be,
   0x6b901122, 0xfd987193, 0xa679438e, 0x49b40821,
   0xf61e2562, 0xc040b340, 0x265e5a51, 0xe9b6c7aa,
   0xd62f105d, 0x02441453, 0xd8a1e681, 0xe7d3fbc8,
   0x21e1cde6, 0xc33707d6, 0xf4d50d87, 0x455a14ed,
   0xa9e3e905, 0xfcefa3f8, 0x676f02d9, 0x8d2a4c8a,
   0xfffa3942, 0x8771f681, 0x6d9d6122, 0xfde5380c,
   0xa4beea44, 0x4bdecfa9, 0xf6bb4b60, 0xbebfbc70,
   0x289b7ec6, 0xeaa127fa, 0xd4ef3085, 0x04881d05,
   0xd9d4d039, 0xe6db99e5, 0x1fa27cf8, 0xc4ac5665,
   0xf4292244, 0x432aff97, 0xab9423a7, 0xfc93a039,
   0x655b59c3, 0x8f0ccc92, 0xffeff47d, 0x85845dd1,
   0x6fa87e4f, 0xfe2ce6e0, 0xa3014314, 0x4e0811a1,
   0xf7537e82, 0xbd3af235, 0x2ad7d2bb, 0xeb86d391]

/-- The 64 MD5 per-round left-rotation amounts. -/
def md5S : List Nat :=
  [7, 12, 17, 22, 7, 12, 17, 22, 7, 12, 17, 22, 7, 12, 17, 22,
   5, 9, 14, 20, 5, 9, 14, 20, 5, 9, 14, 20, 5, 9, 14, 20,
   4, 11, 16, 23, 4, 11, 16, 23, 4, 11, 16, 23, 4, 11, 16, 23,
   6, 10, 15, 21, 6, 10, 15, 21, 6, 10, 15, 21, 6, 10, 15, 21]

/-- The MD5 round function F, G, H or I according to the round index. -/
def md5Mix (i b c d : Nat) : Nat :=
  if i < 16 then (b &&& c) ||| (bnot32 b &&& d)
  else if i < 32 then (d &&& b) ||| (bnot32 d &&& c)
  else if i < 48 then b ^^^ c ^^^ d
  else c ^^^ (b ||| bnot32 d)

/-- Which message word round i consumes. -/
def md5MsgIdx (i : Nat) : Nat :=
  if i < 16 then i
  else if i < 32 then (5 * i + 1) % 16
  else if i < 48 then (3 * i + 5) % 16
  else (7 * i) % 16

/-- k least-significant bytes of v, little-endian. -/
def leBytes : Nat → Nat → List Nat
  | 0, _ => []
  | k + 1, v => v % 256 :: leBytes k (v / 256)

/-- Zero bytes appended after the 0x80 marker so the padded length is 56 mod 64. -/
def md5PadZeros (len : Nat) : Nat :=
  (119 - len % 64) % 64

/-- MD5 padding: 0x80, zeros, then the bit length as 8 little-endian bytes. -/
def md5Pad (msg : List Nat) : List Nat :=
  msg ++ 0x80 :: List.replicate (md5PadZeros msg.length) 0
      ++ leBytes 8 (msg.length * 8 % 2 ^ 64)

/-- The sixteen 32-bit little-endian words of one 64-byte block. -/
def blockWords (block : List Nat) : List Nat :=
  (List.range 16).map fun j =>
    block.getD (4 * j) 0 + 256 * block.getD (4 * j + 1) 0
      + 65536 * block.getD (4 * j + 2) 0 + 16777216 * block.getD (4 * j + 3) 0

/-- One MD5 round on the state (a, b, c, d). -/
def md5Round (M : List Nat) (st : Nat × Nat × Nat × Nat) (i : Nat) :
    Nat × Nat × Nat × Nat :=
  let a := st.1
  let b := st.2.1
  let c := st.2.2.1
  let d := st.2.2.2
  let f := (md5Mix i b c d + a + md5K.getD i 0 + M.getD (md5MsgIdx i) 0) % 2 ^ 32
  (d, (b + rotl32 f (md5S.getD i 0)) % 2 ^ 32, b, c)

/-- Process one 64-byte block. -/
def md5Block (st : Nat × Nat × Nat × Nat) (block : List Nat) :
    Nat × Nat × Nat × Nat :=
  let r := (List.range 64).foldl (md5Round (blockWords block)) st
  ((st.1 + r.1) % 2 ^ 32, (st.2.1 + r.2.1) % 2 ^ 32,
   (st.2.2.1 + r.2.2.1) % 2 ^ 32, (st.2.2.2 + r.2.2.2) % 2 ^ 32)

/-- Split a padded message into 64-byte blocks; the fuel dominates the length. -/
def splitBlocks : Nat → List Nat → List (List Nat)
  | 0, _ => []
  | _, [] => []
  | fuel + 1, l => l.take 64 :: splitBlocks fuel (l.drop 64)

/-- hashlib.md5(msg).digest(): the 16 raw digest bytes. -/
def md5Digest (msg : List Nat) : List Nat :=
  let padded := md5Pad msg
  let st := (splitBlocks padded.length padded).foldl md5Block
    (0x67452301, 0xefcdab89, 0x98badcfe, 0x10325476)
  leBytes 4 st.1 ++ leBytes 4 st.2.1 ++ leBytes 4 st.2.2.1 ++ leBytes 4 st.2.2.2

/-- One lowercase hex digit. -/
def hexDigit (n : Nat) : Char :=
  "0123456789abcdef".toList.getD n 'x'

/-- Lowercase hex string of a byte list (hashlib's hexdigest applied to a digest). -/
def hexEncode (bytes : List Nat) : Str :=
  (bytes.map fun b => [hexDigit (b / 16), hexDigit (b % 16)]).flatten

/-! ## Module constants of the script -/

def TESTNET_NAME : Str := "TEST_NET_NAME".toList
def BUCKET_NAME : Str := "BUCKET_NAME".toList
def PERSISTENCE_SNAPSHOT_NAME : Str := "incremental".toList
def STATEDELTA_DIFF_NAME : Str := "statedelta".toList
def S3_MULTIPART_CHUNK_SIZE : Nat := 8 * 1024 * 1024
def MAX_WORKER_JOBS : Nat := 50

/-- getURL(): "http://" + BUCKET_NAME + ".s3.amazonaws.com". -/
def getURL : Str := ("http://".toList) ++ BUCKET_NAME ++ (".s3.amazonaws.com".toList)

/-! ## calculate_multipart_etag

The file's bytes are given as a list; fp.read(chunk_size) reads data.take
chunk_size and advances the position by dropping chunk_size bytes.  The while
loop is modelled with fuel source.length + 1: every iteration that recurses
consumes at least one byte, so this fuel is never exhausted. -/

/-- The while loop of calculate_multipart_etag: read a chunk; on empty data
append md5() of the empty string when no chunk was read yet and stop; else
append the chunk's md5 and continue.  The list holds the digests of the md5
objects collected in md5s. -/
def collectMD5sAux (chunk_size : Nat) : Nat → Bool → List Nat → List (List Nat)
  | 0, _, _ => []
  | fuel + 1, first, data =>
    let chunk := data.take chunk_size
    if chunk = [] then (if first then [md5Digest []] else [])
    else md5Digest chunk :: collectMD5sAux chunk_size fuel false (data.drop chunk_size)

/-- The md5s list built by calculate_multipart_etag over the whole file. -/
def collectMD5s (chunk_size : Nat) (source : List Nat) : List (List Nat) :=
  collectMD5sAux chunk_size (source.length + 1) true source

/-- calculate_multipart_etag(source_path, chunk_size), the file's bytes passed
directly.  Renders the quoted S3 multipart ETag string. -/
def calculate_multipart_etag (chunk_size : Nat) (source : List Nat) : Str :=
  let md5s := collectMD5s chunk_size source
  if 1 < md5s.length then
    ['"'] ++ hexEncode (md5Digest md5s.flatten) ++ ['-']
      ++ Nat.toDigits 10 md5s.length ++ ['"']
  else if md5s.length = 1 then
    ['"'] ++ hexEncode (md5s.headD []) ++ ['"']
  else
    ['"', '"']

/-- The chunks fp.read actually returns for a file: nonempty takes of
chunk_size bytes until the file is exhausted (with the same fuel scheme as
collectMD5sAux). -/
def chunksReadAux (chunk_size : Nat) : Nat → List Nat → List (List Nat)
  | 0, _ => []
  | fuel + 1, data =>
    let chunk := data.take chunk_size
    if chunk = [] then []
    else chunk :: chunksReadAux chunk_size fuel (data.drop chunk_size)

/-- The nonempty chunks read from a file. -/
def chunksRead (chunk_size : Nat) (source : List Nat) : List (List Nat) :=
  chunksReadAux chunk_size (source.length + 1) source

/-! ## Python string primitives used by GetPersistenceKey -/

/-- Python str.find / str.index: index of the first occurrence of needle. -/
def pyFind (needle : Str) : Str → Option Nat
  | [] => if needle.isPrefixOf ([] : Str) then some 0 else none
  | c :: rest =>
    if needle.isPrefixOf (c :: rest) then some 0
    else (pyFind needle rest).map (· + 1)

/-- Python's "needle in s" substring test. -/
def containsSub (needle s : Str) : Bool :=
  (pyFind needle s).isSome

/-- The scan of str.replace(needle, "") for nonempty needle: left to right,
each occurrence of needle is skipped.  Fuel s.length dominates the scan since
every step consumes at least one character. -/
def removeSubAux (needle : Str) : Nat → Str → Str
  | 0, s => s
  | _, [] => []
  | fuel + 1, c :: rest =>
    if needle.isPrefixOf (c :: rest) then
      removeSubAux needle fuel ((c :: rest).drop needle.length)
    else c :: removeSubAux needle fuel rest

/-- Python s.replace(needle, "").  With an empty needle Python interleaves the
empty replacement between characters, which leaves s unchanged. -/
def pyReplaceDel (s needle : Str) : Str :=
  match needle with
  | [] => s
  | _ :: _ => removeSubAux needle s.length s

/-- Python str.strip's whitespace class. -/
def isPySpace (c : Char) : Bool :=
  c = ' ' || c = '\t' || c = '\n' || c = '\r' || c = '\x0b' || c = '\x0c'

/-- Python s.strip(). -/
def pyStrip (s : Str) : Str :=
  ((s.dropWhile isPySpace).reverse.dropWhile isPySpace).reverse

/-- TESTNET_NAME + "/". -/
def testnetSeg : Str := TESTNET_NAME ++ ("/".toList)

/-- Line 107 of the script: filename =
key_url.replace(key_url[:key_url.index(TESTNET_NAME+"/")+len(TESTNET_NAME+"/")],
"").strip().  None models the ValueError str.index raises when the segment is
absent. -/
def deriveLocalFilename (key_url : Str) : Option Str :=
  match pyFind testnetSeg key_url with
  | none => none
  | some idx =>
    some (pyStrip (pyReplaceDel key_url (key_url.take (idx + testnetSeg.length))))

/-- Modelled from the spec: the spec's claimed derivation of localRelativePath,
the key with everything up to and including the first network-name segment
stripped and the remainder left unchanged.  Stated only to be compared with
deriveLocalFilename, the translation of the code. -/
def specLocalRelativePath (key_url : Str) : Option Str :=
  (pyFind testnetSeg key_url).map fun idx => key_url.drop (idx + testnetSeg.length)

/-! ## The remote lister (GetAllObjectsFromS3)

One parsed XML listing response: the Key texts of tree[5:] and the text of
tree[4] (IsTruncated).  The remote side is scripted as the list of pages the
successive requests would receive, consumed in request order; the markers the
loop sends are recorded so that pagination can be stated. -/

structure ListingPage where
  keys : List Str
  istruncated : Str
deriving DecidableEq

/-- The filter of line 86: keep key_url unless (Exclude_txnBodies and
"txBodies" in key_url) or (Exclude_microBlocks and "microBlocks" in key_url). -/
def surviveFilters (exT exM : Bool) (key_url : Str) : Bool :=
  !(exT && containsSub ("txBodies".toList) key_url)
    && !(exM && containsSub ("microBlocks".toList) key_url)

/-- How the paginated listing loop ends. -/
inductive ListOutcome where
  | noMorePages (markers : List Str)
  | emptyPage (markers : List Str)
  | complete (markers : List Str) (keyurls : List Str)
deriving DecidableEq

/-- The while loop of GetAllObjectsFromS3 (lines 75-95): one request per page,
markers the list of markers sent so far, acc the list_of_keyurls accumulator.
An empty tree[5:] returns 1 (emptyPage); istruncated == 'true' continues with
the page's last key as marker; noMorePages marks a request past the scripted
pages. -/
def GetAllObjectsLoop (exT exM : Bool) (url : Str) :
    List ListingPage → Str → List Str → List Str → ListOutcome
  | [], marker, _, markers => .noMorePages (markers ++ [marker])
  | page :: rest, marker, acc, markers =>
    let markers' := markers ++ [marker]
    if page.keys = [] then .emptyPage markers'
    else
      let acc' := acc ++ (page.keys.filter (surviveFilters exT exM)).map
        (fun k => url ++ ("/".toList) ++ k)
      let lastkey := page.keys.getLastD []
      if page.istruncated = ("true".toList) then
        GetAllObjectsLoop exT exM url rest lastkey acc' markers'
      else .complete markers' acc'

/-- GetAllObjectsFromS3(url, folderName): 1 on an empty page, else the worker
pool runs over the collected key urls (dl, scripted) and 0 is returned.  A
request past the scripted pages is modelled as a network failure (exception),
and an abort inside the pool terminates the process. -/
def GetAllObjectsFromS3 (exT exM : Bool) (url : Str) (pages : List ListingPage)
    (dl : List Str → PyFlow Unit) : PyFlow Nat :=
  match GetAllObjectsLoop exT exM url pages ([] : Str) [] [] with
  | .noMorePages _ => .exc
  | .emptyPage _ => .val 1
  | .complete _ keyurls =>
    match dl keyurls with
    | .val _ => .val 0
    | .exc => .exc
    | .terminate c => .terminate c

/-! ## The download worker (GetPersistenceKey)

One attempt of the fetch-write-verify body is scripted: the request can raise
before the local file is touched, the streaming write can raise half way
(leaving a truncated file on disk), or the file is fully written and the
recomputed etag does or does not equal the ETag response header.  The local
file is tracked as none (absent) or some b (present, b = its recomputed
checksum equals the remote ETag). -/

inductive Attempt where
  | raiseBeforeWrite
  | raiseMidWrite
  | written (matched : Bool)
deriving DecidableEq

/-- The while loop of GetPersistenceKey (lines 105-136): attempt gives the
outcome of try number retry_counter.  On mismatch the file is removed,
retry_counter incremented, and past 3 retries os._exit(1) aborts the process.
The loop makes at most four recursive steps, so fuel 5 is never exhausted
(GetPersistenceKeyLoop_ne_none); none marks exhausted fuel. -/
def GetPersistenceKeyLoop (attempt : Nat → Attempt) :
    Nat → Nat → Option Bool → Option (PyFlow Unit × Option Bool)
  | 0, _, _ => none
  | fuel + 1, retry_counter, file =>
    match attempt retry_counter with
    | .raiseBeforeWrite => some (.exc, file)
    | .raiseMidWrite => some (.exc, some false)
    | .written matched =>
      if matched then some (.val (), some true)
      else
        if retry_counter + 1 > 3 then some (.terminate 1, none)
        else GetPersistenceKeyLoop attempt fuel (retry_counter + 1) none

/-- GetPersistenceKey(key_url) for one task: its attempt script and the state
of its local file before the call. -/
def GetPersistenceKey (attempt : Nat → Attempt) (file0 : Option Bool) :
    Option (PyFlow Unit × Option Bool) :=
  GetPersistenceKeyLoop attempt 5 0 file0

/-- The worker-pool stage (lines 97-101): pool.map(GetPersistenceKey, ...) with
shutdown(wait=True).  The returned iterator is never consumed, so an exception
raised inside a worker stays inside its future and the stage returns normally;
os._exit(1) inside a worker kills the whole process.  Sequentialised: each
task is one (attempt script, initial file state) pair. -/
def downloadAll : List ((Nat → Attempt) × Option Bool) → PyFlow Unit
  | [] => .val ()
  | t :: rest =>
    match GetPersistenceKey t.1 t.2 with
    | some (.terminate c, _) => .terminate c
    | _ => downloadAll rest

/-! ## Upload lock and phase wrappers -/

/-- UploadLock() (lines 49-53): resp scripts requests.get on the .lock marker;
status code 200 means locked, any other status means not locked, and a raised
request propagates. -/
def UploadLock (resp : PyFlow Nat) : PyFlow Bool :=
  match resp with
  | .val status_code => if status_code = 200 then .val true else .val false
  | .exc => .exc
  | .terminate c => .terminate c

/-- GetEntirePersistenceFromS3 (lines 55-59), given the result of its
GetAllObjectsFromS3 call: a return of 1 runs exit(1), which raises SystemExit,
is not caught by "except Exception", and terminates the process with status 1.
The CleanupDir / CreateAndChangeDir filesystem calls before it are effect-free
in this model. -/
def GetEntirePersistenceFromS3 (getAllResult : PyFlow Nat) : PyFlow Unit :=
  match getAllResult with
  | .val c => if c = 1 then .terminate 1 else .val ()
  | .exc => .exc
  | .terminate c => .terminate c

/-- GetStateDeltaFromS3 (lines 62-65), given the result of its
GetAllObjectsFromS3 call and of ExtractAllGzippedObjects: the return value of
the listing call is discarded, so an empty state-delta listing is ignored and
extraction runs anyway. -/
def GetStateDeltaFromS3 (getAllResult : PyFlow Nat)
    (extractResult : PyFlow Unit) : PyFlow Unit :=
  match getAllResult with
  | .val _ => extractResult
  | .exc => .exc
  | .terminate c => .terminate c

/-! ## run() (lines 198-222)

Each pass of the while loop consults the script of that iteration: the two
UploadLock calls and the outcomes of the two download phases.  Events record
what the pass did; the result is the process exit code, or none when the fuel
ran out with the loop still spinning.  "except Exception" catches only exc,
never terminate. -/

structure IterScript where
  lock1 : PyFlow Bool
  snap : PyFlow Unit
  lock2 : PyFlow Bool
  delta : PyFlow Unit

inductive Ev where
  | lock1Ev (iter : Nat) (r : PyFlow Bool)
  | snapEv (iter : Nat)
  | lock2Ev (iter : Nat) (r : PyFlow Bool)
  | deltaEv (iter : Nat)
deriving DecidableEq

/-- Which pass an event belongs to. -/
def Ev.iterOf : Ev → Nat
  | .lock1Ev i _ => i
  | .snapEv i => i
  | .lock2Ev i _ => i
  | .deltaEv i => i

/-- The while loop of run(): i is the pass number.  A first UploadLock of True
continues; False runs the snapshot download; a second UploadLock of True
continues (restart); False runs the state-delta download, whose success breaks
out to exit(0).  Any exc is caught, sleeps 5 seconds and continues; any
terminate ends the process with its code. -/
def runLoop (script : Nat → IterScript) : Nat → Nat → Option Nat × List Ev
  | 0, _ => (none, [])
  | fuel + 1, i =>
    match (script i).lock1 with
    | .terminate c => (some c, [.lock1Ev i (.terminate c)])
    | .exc =>
      ((runLoop script fuel (i + 1)).1,
        .lock1Ev i .exc :: (runLoop script fuel (i + 1)).2)
    | .val true =>
      ((runLoop script fuel (i + 1)).1,
        .lock1Ev i (.val true) :: (runLoop script fuel (i + 1)).2)
    | .val false =>
      match (script i).snap with
      | .terminate c => (some c, [.lock1Ev i (.val false), .snapEv i])
      | .exc =>
        ((runLoop script fuel (i + 1)).1,
          .lock1Ev i (.val false) :: .snapEv i :: (runLoop script fuel (i + 1)).2)
      | .val _ =>
        match (script i).lock2 with
        | .terminate c =>
          (some c, [.lock1Ev i (.val false), .snapEv i, .lock2Ev i (.terminate c)])
        | .exc =>
          ((runLoop script fuel (i + 1)).1,
            .lock1Ev i (.val false) :: .snapEv i :: .lock2Ev i .exc
              :: (runLoop script fuel (i + 1)).2)
        | .val true =>
          ((runLoop script fuel (i + 1)).1,
            .lock1Ev i (.val false) :: .snapEv i :: .lock2Ev i (.val true)
              :: (runLoop script fuel (i + 1)).2)
        | .val false =>
          match (script i).delta with
          | .val _ =>
            (some 0,
              [.lock1Ev i (.val false), .snapEv i, .lock2Ev i (.val false),
                .deltaEv i])
          | .exc =>
            ((runLoop script fuel (i + 1)).1,
              .lock1Ev i (.val false) :: .snapEv i :: .lock2Ev i (.val false)
                :: .deltaEv i :: (runLoop script fuel (i + 1)).2)
          | .terminate c =>
            (some c,
              [.lock1Ev i (.val false), .snapEv i, .lock2Ev i (.val false),
                .deltaEv i])

/-- run(): the loop from pass 0. -/
def run (script : Nat → IterScript) (fuel : Nat) : Option Nat × List Ev :=
  runLoop script fuel 0

/-! ## Helper lemmas about the download worker loop -/

/-- Fuel 5 is enough for GetPersistenceKeyLoop: every recursive step raises
retry_counter by one and the loop aborts before it passes 3. -/
theorem GetPersistenceKeyLoop_ne_none (attempt : Nat → Attempt) :
    ∀ fuel retry_counter file, 4 ≤ retry_counter + fuel → retry_counter ≤ 3 →
      GetPersistenceKeyLoop attempt fuel retry_counter file ≠ none := by
  intro fuel
  induction fuel with
  | zero =>
    intro rc file h1 h2
    omega
  | succ n ih =>
    intro rc file h1 h2
    simp only [GetPersistenceKeyLoop]
    cases attempt rc with
    | raiseBeforeWrite => simp
    | raiseMidWrite => simp
    | written matched =>
      cases matched with
      | true => simp
      | false =>
        simp only [Bool.false_eq_true, if_false]
        by_cases hrc : rc + 1 > 3
        · simp [hrc]
        · simp only [hrc, if_false]
          exact ih (rc + 1) none (by omega) (by omega)

/-- Whatever the fuel, a worker loop that ends by success leaves a verified
file, and one that ends by abort leaves no file. -/
theorem GetPersistenceKeyLoop_invariant (attempt : Nat → Attempt) :
    ∀ fuel retry_counter file res f,
      GetPersistenceKeyLoop attempt fuel retry_counter file = some (res, f) →
      (res = .val () → f = some true) ∧ (∀ c, res = .terminate c → f = none) := by
  intro fuel
  induction fuel with
  | zero => intro rc file res f h; exact absurd h (by simp [GetPersistenceKeyLoop])
  | succ n ih =>
    intro rc file res f h
    simp only [GetPersistenceKeyLoop] at h
    cases hat : attempt rc with
    | raiseBeforeWrite =>
      rw [hat] at h
      simp only [Option.some.injEq, Prod.mk.injEq] at h
      obtain ⟨hres, hf⟩ := h
      subst hres
      refine ⟨fun hc => ?_, fun c hc => ?_⟩ <;> cases hc
    | raiseMidWrite =>
      rw [hat] at h
      simp only [Option.some.injEq, Prod.mk.injEq] at h
      obtain ⟨hres, hf⟩ := h
      subst hres
      refine ⟨fun hc => ?_, fun c hc => ?_⟩ <;> cases hc
    | written matched =>
      rw [hat] at h
      cases matched with
      | true =>
        simp only [if_true] at h
        simp only [Option.some.injEq, Prod.mk.injEq] at h
        obtain ⟨hres, hf⟩ := h
        subst hres; subst hf
        exact ⟨fun _ => rfl, fun c hc => by cases hc⟩
      | false =>
        simp only [Bool.false_eq_true, if_false] at h
        by_cases hrc : rc + 1 > 3
        · rw [if_pos hrc] at h
          simp only [Option.some.injEq, Prod.mk.injEq] at h
          obtain ⟨hres, hf⟩ := h
          subst hres; subst hf
          refine ⟨fun hc => ?_, fun c _ => rfl⟩
          cases hc
        · rw [if_neg hrc] at h
          exact ih (rc + 1) none res f h

/-! ## C6: verified-or-absent invariant of the worker loop -/

/-- C6: after a download worker's per-task loop finishes by success, the local
file exists and its recomputed multipart checksum equals the remote ETag;
after it finishes by terminal abort, the local file does not exist (on every
checksum mismatch os.remove deletes it before the retry or the abort). -/
theorem worker_verified_or_absent (attempt : Nat → Attempt) (file0 : Option Bool)
    (res : PyFlow Unit) (f : Option Bool)
    (h : GetPersistenceKey attempt file0 = some (res, f)) :
    (res = .val () → f = some true) ∧ (∀ c, res = .terminate c → f = none) :=
  GetPersistenceKeyLoop_invariant attempt 5 0 file0 res f h

/-- Witness for C6: a first-try verified download ends in success, and the
theorem applied to it reports the file verified. -/
theorem worker_verified_or_absent_witness :
    GetPersistenceKey (fun _ => Attempt.written true) none
      = some (.val (), some true)
    ∧ (some true : Option Bool) = some true :=
  ⟨rfl,
   (worker_verified_or_absent (fun _ => Attempt.written true) none
      (.val ()) (some true) rfl).1 rfl⟩

/-! ## C4: the retry ceiling -/

/-- C4: four checksum mismatches in a row abort the process with exit status 1
(and no local file left); three mismatches followed by a match on the fourth
attempt complete the task successfully with no abort. -/
theorem retry_ceiling (attempt : Nat → Attempt) (file0 : Option Bool) :
    ((∀ i, i < 4 → attempt i = .written false) →
      GetPersistenceKey attempt file0 = some (.terminate 1, none))
    ∧ ((∀ i, i < 3 → attempt i = .written false) → attempt 3 = .written true →
      GetPersistenceKey attempt file0 = some (.val (), some true)) := by
  constructor
  · intro h
    have e0 := h 0 (by omega)
    have e1 := h 1 (by omega)
    have e2 := h 2 (by omega)
    have e3 := h 3 (by omega)
    simp [GetPersistenceKey, GetPersistenceKeyLoop, e0, e1, e2, e3]
  · intro h h3
    have e0 := h 0 (by omega)
    have e1 := h 1 (by omega)
    have e2 := h 2 (by omega)
    simp [GetPersistenceKey, GetPersistenceKeyLoop, e0, e1, e2, h3]

/-- Witness for C4 at concrete attempt scripts: all-mismatch aborts with
status 1; mismatch-mismatch-mismatch-match succeeds. -/
theorem retry_ceiling_witness :
    GetPersistenceKey (fun _ => Attempt.written false) none
      = some (.terminate 1, none)
    ∧ GetPersistenceKey
        (fun i => if i < 3 then Attempt.written false else Attempt.written true)
        none = some (.val (), some true) :=
  ⟨(retry_ceiling (fun _ => Attempt.written false) none).1 (fun i _ => rfl),
   (retry_ceiling
      (fun i => if i < 3 then Attempt.written false else Attempt.written true)
      none).2
    (fun i hi => by simp [hi]) (by simp)⟩

/-! ## C2: what a normal return of the worker-pool stage guarantees -/

/-- C2 counterexample: a task whose single attempt raises an exception (for
example requests.get failing) is swallowed by pool.map, whose result iterator
is never consumed; downloadAll returns normally and line 100 reports all
objects completed, yet the task never completed its fetch-write-verify loop
(its outcome is exc, not val). -/
theorem downloadAll_swallows_cex :
    downloadAll [(fun _ => Attempt.raiseBeforeWrite, none)] = .val ()
    ∧ GetPersistenceKey (fun _ => Attempt.raiseBeforeWrite) none
        = some (.exc, none)
    ∧ (PyFlow.exc : PyFlow Unit) ≠ .val () := by
  refine ⟨rfl, rfl, ?_⟩
  intro hcontra
  cases hcontra

/-- C2 as amended: downloadAll blocks until every task has finished or the
process has aborted, but a normal return only guarantees that each task
either completed its fetch-write-verify loop successfully or raised an
exception that the unconsumed pool.map iterator swallowed. -/
theorem downloadAll_amended (tasks : List ((Nat → Attempt) × Option Bool))
    (h : downloadAll tasks = .val ()) :
    ∀ t ∈ tasks, ∃ res f, GetPersistenceKey t.1 t.2 = some (res, f)
      ∧ (res = .val () ∨ res = .exc) := by
  induction tasks with
  | nil => intro t ht; cases ht
  | cons t rest ih =>
    intro t' ht'
    rw [downloadAll] at h
    rcases hk : GetPersistenceKey t.1 t.2 with _ | ⟨res, f⟩
    · exact absurd hk (GetPersistenceKeyLoop_ne_none t.1 5 0 t.2 (by omega) (by omega))
    · rw [hk] at h
      cases ht' with
      | head =>
        refine ⟨res, f, hk, ?_⟩
        cases res with
        | val a => exact Or.inl rfl
        | exc => exact Or.inr rfl
        | terminate c => exact absurd h (by simp)
      | tail _ hmem =>
        cases res with
        | val a => exact ih h t' hmem
        | exc => exact ih h t' hmem
        | terminate c => exact absurd h (by simp)

/-- Witness for C2's amended theorem: a one-task list that verifies on the
first try returns normally, and the theorem reports its outcome. -/
theorem downloadAll_amended_witness :
    ∃ res f, GetPersistenceKey (fun _ => Attempt.written true) none
      = some (res, f) ∧ (res = .val () ∨ res = .exc) :=
  downloadAll_amended [(fun _ => Attempt.written true, none)] rfl
    (fun _ => Attempt.written true, none) (List.mem_singleton.mpr rfl)

/-! ## C10: the upload-lock check and non-200 statuses -/

/-- C10: UploadLock treats status 200 as locked and every other status code
(403, 404, 5xx alike) as not locked, returning false; only a raised request
(no response at all) propagates as an exception. -/
theorem uploadLock_status :
    UploadLock (.val 200) = .val true
    ∧ (∀ status_code : Nat, status_code ≠ 200 →
        UploadLock (.val status_code) = .val false)
    ∧ UploadLock .exc = .exc := by
  refine ⟨rfl, fun c hc => ?_, rfl⟩
  simp [UploadLock, hc]

/-- Witness for C10 at statuses 403, 404 and 503. -/
theorem uploadLock_status_witness :
    UploadLock (.val 403) = .val false
    ∧ UploadLock (.val 404) = .val false
    ∧ UploadLock (.val 503) = .val false :=
  ⟨uploadLock_status.2.1 403 (by omega),
   uploadLock_status.2.1 404 (by omega),
   uploadLock_status.2.1 503 (by omega)⟩

/-! ## Chunking lemmas for calculate_multipart_etag -/

/-- chunksReadAux does not depend on the fuel once it dominates the length. -/
theorem chunksReadAux_fuel (chunk_size : Nat) :
    ∀ f1 f2 data, data.length < f1 → data.length < f2 →
      chunksReadAux chunk_size f1 data = chunksReadAux chunk_size f2 data := by
  intro f1
  induction f1 with
  | zero => intro f2 data h1 _; omega
  | succ n ih =>
    intro f2 data h1 h2
    cases f2 with
    | zero => omega
    | succ m =>
      simp only [chunksReadAux]
      by_cases hc : data.take chunk_size = []
      · rw [if_pos hc, if_pos hc]
      · rw [if_neg hc, if_neg hc]
        obtain ⟨hcs, hdata⟩ : chunk_size ≠ 0 ∧ data ≠ [] := by
          constructor <;> intro hcontra <;>
            exact hc (List.take_eq_nil_iff.mpr (by simp [hcontra]))
        have hlen : 0 < data.length := List.length_pos.mpr hdata
        have hlt : (data.drop chunk_size).length < data.length := by
          rw [List.length_drop]
          omega
        rw [ih m (data.drop chunk_size) (by omega) (by omega)]

/-- For a nonempty file and positive chunk size the md5s list is exactly the
md5 of each chunk read, in order. -/
theorem collectMD5s_eq_map (chunk_size : Nat) :
    ∀ fuel data, data.length < fuel →
      collectMD5sAux chunk_size fuel false data
        = (chunksReadAux chunk_size fuel data).map md5Digest := by
  intro fuel
  induction fuel with
  | zero => intro data h; omega
  | succ n ih =>
    intro data h
    simp only [collectMD5sAux, chunksReadAux]
    by_cases hc : data.take chunk_size = []
    · rw [if_pos hc, if_pos hc]
      simp
    · rw [if_neg hc, if_neg hc]
      obtain ⟨hcs, hdata⟩ : chunk_size ≠ 0 ∧ data ≠ [] := by
        constructor <;> intro hcontra <;>
          exact hc (List.take_eq_nil_iff.mpr (by simp [hcontra]))
      have hlen : 0 < data.length := List.length_pos.mpr hdata
      have hlt : (data.drop chunk_size).length < data.length := by
        rw [List.length_drop]
        omega
      rw [List.map_cons, ih (data.drop chunk_size) (by omega)]

/-- The md5s list of calculate_multipart_etag on a nonempty file with positive
chunk size: one digest per chunk read. -/
theorem collectMD5s_chunks (chunk_size : Nat) (source : List Nat)
    (hcs : 0 < chunk_size) (hne : source ≠ []) :
    collectMD5s chunk_size source
      = (chunksRead chunk_size source).map md5Digest := by
  unfold collectMD5s chunksRead
  have hchunk : source.take chunk_size ≠ [] := by
    intro hcontra
    rcases List.take_eq_nil_iff.mp hcontra with h | h
    · omega
    · exact hne h
  have hlen : 0 < source.length := List.length_pos.mpr hne
  simp only [collectMD5sAux, chunksReadAux, if_neg hchunk, List.map_cons]
  have hlt : (source.drop chunk_size).length < source.length := by
    rw [List.length_drop]
    omega
  rw [collectMD5s_eq_map chunk_size source.length (source.drop chunk_size) (by omega)]

/-- The chunks read cover the file: their concatenation is the file. -/
theorem chunksRead_flatten (chunk_size : Nat) (hcs : 0 < chunk_size) :
    ∀ fuel data, data.length < fuel →
      (chunksReadAux chunk_size fuel data).flatten = data := by
  intro fuel
  induction fuel with
  | zero => intro data h; omega
  | succ n ih =>
    intro data h
    simp only [chunksReadAux]
    by_cases hc : data.take chunk_size = []
    · rw [if_pos hc]
      rcases List.take_eq_nil_iff.mp hc with h0 | h0
      · omega
      · simp [h0]
    · rw [if_neg hc]
      have hdata : data ≠ [] := by
        intro hcontra
        exact hc (List.take_eq_nil_iff.mpr (Or.inr hcontra))
      have hlen : 0 < data.length := List.length_pos.mpr hdata
      have hlt : (data.drop chunk_size).length < data.length := by
        rw [List.length_drop]
        omega
      rw [List.flatten_cons, ih (data.drop chunk_size) (by omega),
        List.take_append_drop]

/-- collectMD5s on the empty file: a single md5 object of the empty string is
appended before the loop breaks. -/
theorem collectMD5s_nil (chunk_size : Nat) :
    collectMD5s chunk_size [] = [md5Digest []] := by
  unfold collectMD5s
  simp [collectMD5sAux]

/-! ## C1: the etag of an empty file -/

/-- C1 counterexample: for the file of size 0 the script's rendered checksum
is the quoted hex md5 of the empty byte string, not the empty-string checksum:
on an empty file the loop appends hashlib.md5() before breaking, so the
len(md5s) == 0 branch that renders the two-character string of two quotes is
dead code. -/
theorem etag_empty_file_cex :
    calculate_multipart_etag S3_MULTIPART_CHUNK_SIZE []
      = ("\"d41d8cd98f00b204e9800998ecf8427e\"".toList)
    ∧ calculate_multipart_etag S3_MULTIPART_CHUNK_SIZE [] ≠ ("\"\"".toList) := by
  constructor
  · rw [calculate_multipart_etag, collectMD5s_nil]
    decide
  · rw [calculate_multipart_etag, collectMD5s_nil]
    decide

/-- C1 as amended: for the file of size 0 bytes calculate_multipart_etag at
the script's multipart chunk size returns the quoted hex md5 digest of the
empty byte string (which is also the ETag S3 reports for an empty object). -/
theorem etag_empty_file :
    calculate_multipart_etag S3_MULTIPART_CHUNK_SIZE []
      = ['"'] ++ hexEncode (md5Digest []) ++ ['"'] := by
  rw [calculate_multipart_etag, collectMD5s_nil]
  decide

/-! ## C5: the etag of a nonempty file -/

/-- C5: for a nonempty file read with a positive chunk size, if exactly one
chunk was read the result is the quoted hex md5 of that chunk (the whole
file); if N > 1 chunks were read it is the quoted hex md5 of the concatenated
raw per-chunk digests, a dash, and the chunk count N. -/
theorem etag_nonempty (chunk_size : Nat) (source : List Nat)
    (hcs : 0 < chunk_size) (hne : source ≠ []) :
    ((chunksRead chunk_size source).length = 1 →
      calculate_multipart_etag chunk_size source
        = ['"'] ++ hexEncode (md5Digest source) ++ ['"'])
    ∧ (1 < (chunksRead chunk_size source).length →
      calculate_multipart_etag chunk_size source
        = ['"']
          ++ hexEncode (md5Digest
            (((chunksRead chunk_size source).map md5Digest).flatten))
          ++ ['-'] ++ Nat.toDigits 10 (chunksRead chunk_size source).length
          ++ ['"']) := by
  have hmap := collectMD5s_chunks chunk_size source hcs hne
  have hflat : (chunksRead chunk_size source).flatten = source :=
    chunksRead_flatten chunk_size hcs (source.length + 1) source (by omega)
  constructor
  · intro h1
    obtain ⟨c, hc⟩ : ∃ c, chunksRead chunk_size source = [c] := by
      rcases hch : chunksRead chunk_size source with _ | ⟨c, rest⟩
      · rw [hch] at h1; simp at h1
      · rw [hch] at h1
        simp only [List.length_cons, Nat.add_left_eq_self] at h1
        rw [List.length_eq_zero] at h1
        exact ⟨c, by rw [h1]⟩
    have hcsrc : c = source := by
      rw [hc] at hflat
      simpa using hflat
    rw [calculate_multipart_etag, hmap, hc, hcsrc]
    simp
  · intro h1
    rw [calculate_multipart_etag, hmap]
    rw [List.length_map]
    rw [if_pos h1]

/-- Witness for C5: chunk size 4 reads [1, 2, 3] as one chunk; chunk size 2
reads it as two chunks. -/
theorem etag_nonempty_witness :
    (calculate_multipart_etag 4 [1, 2, 3]
      = ['"'] ++ hexEncode (md5Digest [1, 2, 3]) ++ ['"'])
    ∧ (calculate_multipart_etag 2 [1, 2, 3]
      = ['"']
        ++ hexEncode (md5Digest (((chunksRead 2 [1, 2, 3]).map md5Digest).flatten))
        ++ ['-'] ++ Nat.toDigits 10 (chunksRead 2 [1, 2, 3]).length ++ ['"']) :=
  ⟨(etag_nonempty 4 [1, 2, 3] (by omega) (by simp)).1 (by decide),
   (etag_nonempty 2 [1, 2, 3] (by omega) (by simp)).2 (by decide)⟩

/-! ## C8: pagination of the lister -/

/-- The last listed key of a page, the value line 89 leaves in lastkey. -/
def pageLastKey (p : ListingPage) : Str :=
  p.keys.getLastD []

/-- The listing loop, started at any marker and accumulators, on a script of
nonempty pages of which all but the last are truncated: one request per page,
the marker trail extended by each previous page's last key, and the surviving
entries concatenated in page order. -/
theorem GetAllObjectsLoop_complete (exT exM : Bool) (url : Str) :
    ∀ (pages : List ListingPage) (marker : Str) (acc markers : List Str),
      pages ≠ [] →
      (∀ p ∈ pages, p.keys ≠ []) →
      (∀ p ∈ pages.dropLast, p.istruncated = ("true".toList)) →
      (pages.getLastD ⟨[], []⟩).istruncated ≠ ("true".toList) →
      GetAllObjectsLoop exT exM url pages marker acc markers
        = .complete (markers ++ marker :: pages.dropLast.map pageLastKey)
            (acc ++ (pages.map fun p =>
              (p.keys.filter (surviveFilters exT exM)).map
                (fun k => url ++ ("/".toList) ++ k)).flatten) := by
  intro pages
  induction pages with
  | nil => intro _ _ _ hne; exact absurd rfl hne
  | cons p rest ih =>
    intro marker acc markers _ hkeys htrunc hlast
    simp only [GetAllObjectsLoop]
    rw [if_neg (hkeys p (List.mem_cons_self p rest))]
    cases rest with
    | nil =>
      have hp : p.istruncated ≠ ("true".toList) := by
        simpa [List.getLastD] using hlast
      rw [if_neg hp]
      simp [pageLastKey]
    | cons q rest' =>
      have htr : p.istruncated = ("true".toList) :=
        htrunc p (by rw [List.dropLast_cons₂]; exact List.mem_cons_self p _)
      rw [if_pos htr]
      rw [ih _ _ _ (by simp)
        (fun r hr => hkeys r (List.mem_cons_of_mem p hr))
        (fun r hr =>
          htrunc r (by rw [List.dropLast_cons₂]; exact List.mem_cons_of_mem p hr))
        (by simpa [List.getLastD_cons] using hlast)]
      simp [pageLastKey, List.dropLast_cons₂]

/-- C8: for K listing pages with nonempty entry lists, the first K-1 flagged
truncated and the last not, the lister issues exactly K requests: the first
with the empty marker, each later one with the previous page's last listed
key, stopping at the page that is not truncated, and the result is the
concatenation of all pages' surviving (non-filtered) entries in page order,
each prefixed by the request url. -/
theorem pagination_exact (exT exM : Bool) (url : Str) (pages : List ListingPage)
    (hne : pages ≠ [])
    (hkeys : ∀ p ∈ pages, p.keys ≠ [])
    (htrunc : ∀ p ∈ pages.dropLast, p.istruncated = ("true".toList))
    (hlast : (pages.getLastD ⟨[], []⟩).istruncated ≠ ("true".toList)) :
    GetAllObjectsLoop exT exM url pages ([] : Str) [] []
      = .complete (([] : Str) :: pages.dropLast.map pageLastKey)
          ((pages.map fun p =>
            (p.keys.filter (surviveFilters exT exM)).map
              (fun k => url ++ ("/".toList) ++ k)).flatten)
    ∧ (([] : Str) :: pages.dropLast.map pageLastKey).length = pages.length := by
  constructor
  · simpa using
      GetAllObjectsLoop_complete exT exM url pages ([] : Str) [] [] hne hkeys
        htrunc hlast
  · have hlen : 0 < pages.length := List.length_pos.mpr hne
    simp only [List.length_cons, List.length_map, List.length_dropLast]
    omega

/-- Witness for C8: two pages, the first truncated, markers are the empty
string then the first page's last key, and the surviving url-prefixed entries
of both pages are returned in order. -/
theorem pagination_exact_witness :
    GetAllObjectsLoop true true ("u".toList)
        [⟨[("a".toList), ("b".toList)], ("true".toList)⟩,
         ⟨[("c".toList)], ("false".toList)⟩] ([] : Str) [] []
      = .complete [([] : Str), ("b".toList)]
          [("u/a".toList), ("u/b".toList), ("u/c".toList)]
    ∧ ([([] : Str), ("b".toList)]).length = 2 := by
  have h := pagination_exact true true ("u".toList)
    [⟨[("a".toList), ("b".toList)], ("true".toList)⟩,
     ⟨[("c".toList)], ("false".toList)⟩]
    (by decide) (by decide) (by decide) (by decide)
  exact ⟨by rw [h.1]; decide, by decide⟩

/-! ## C9: the derived local filename -/

/-- A needle that pyFind does not locate in s is never removed from s. -/
theorem removeSubAux_no_occurrence (needle : Str) :
    ∀ fuel s, s.length ≤ fuel → pyFind needle s = none →
      removeSubAux needle fuel s = s := by
  intro fuel
  induction fuel with
  | zero =>
    intro s _ _
    cases s <;> rfl
  | succ n ih =>
    intro s hlen hfind
    cases s with
    | nil => rfl
    | cons c rest =>
      rw [pyFind] at hfind
      cases hpre : needle.isPrefixOf (c :: rest) with
      | true => rw [if_pos hpre] at hfind; cases hfind
      | false =>
        rw [if_neg (by simp [hpre])] at hfind
        have hrest : pyFind needle rest = none := by
          rcases hfr : pyFind needle rest with _ | j
          · rfl
          · rw [hfr] at hfind; cases hfind
        rw [removeSubAux, if_neg (by simp [hpre]),
          ih rest (by simpa using Nat.le_of_succ_le_succ hlen) hrest]

/-- str.replace(pre, "") applied to pre ++ rest removes the leading pre and,
when pre occurs nowhere in rest, nothing else. -/
theorem pyReplaceDel_leading (pre rest : Str) (hne : pre ≠ [])
    (hno : pyFind pre rest = none) :
    pyReplaceDel (pre ++ rest) pre = rest := by
  obtain ⟨p, ps, rfl⟩ : ∃ p ps, pre = p :: ps := by
    cases pre with
    | nil => exact absurd rfl hne
    | cons p ps => exact ⟨p, ps, rfl⟩
  rw [pyReplaceDel]
  rw [show ((p :: ps) ++ rest).length = (ps.length + rest.length) + 1 by
    simp [List.length_append]]
  rw [List.cons_append, removeSubAux]
  have hpre : (p :: ps).isPrefixOf (p :: (ps ++ rest)) = true := by
    rw [List.isPrefixOf_iff_prefix, ← List.cons_append]
    exact List.prefix_append (p :: ps) rest
  rw [if_pos hpre]
  rw [show (p :: (ps ++ rest)).drop (p :: ps).length = rest by
    rw [List.length_cons, List.drop_succ_cons, List.drop_left]]
  exact removeSubAux_no_occurrence (p :: ps) (ps.length + rest.length) rest
    (by omega) hno

/-- pyFind needle s = some idx means needle starts at position idx of s. -/
theorem pyFind_some_isPrefixOf (needle : Str) :
    ∀ s idx, pyFind needle s = some idx →
      needle.isPrefixOf (s.drop idx) = true := by
  intro s
  induction s with
  | nil =>
    intro idx h
    rw [pyFind] at h
    cases hpre : needle.isPrefixOf ([] : Str) with
    | true =>
      rw [if_pos hpre] at h
      cases h
      simpa using hpre
    | false => rw [if_neg (by simp [hpre])] at h; cases h
  | cons c rest ih =>
    intro idx h
    rw [pyFind] at h
    cases hpre : needle.isPrefixOf (c :: rest) with
    | true =>
      rw [if_pos hpre] at h
      cases h
      simpa using hpre
    | false =>
      rw [if_neg (by simp [hpre])] at h
      rcases hfr : pyFind needle rest with _ | j
      · rw [hfr] at h; cases h
      · rw [hfr] at h
        simp only [Option.map_some', Option.some.injEq] at h
        subst h
        rw [List.drop_succ_cons]
        exact ih j hfr

/-- C9 counterexample: the code removes every occurrence of the leading
prefix, not only the first, so a key whose remainder repeats the prefix does
not map to the unchanged remainder the claim describes. -/
theorem derive_filename_cex :
    deriveLocalFilename ("u/TEST_NET_NAME/a/u/TEST_NET_NAME/b".toList)
      = some ("a/b".toList)
    ∧ specLocalRelativePath ("u/TEST_NET_NAME/a/u/TEST_NET_NAME/b".toList)
      = some ("a/u/TEST_NET_NAME/b".toList)
    ∧ deriveLocalFilename ("u/TEST_NET_NAME/a/u/TEST_NET_NAME/b".toList)
      ≠ specLocalRelativePath ("u/TEST_NET_NAME/a/u/TEST_NET_NAME/b".toList) := by
  refine ⟨by decide, by decide, by decide⟩

/-- C9 as amended: the derived path equals the key's remainder after the first
network-name segment whenever that remainder contains no further occurrence of
the stripped prefix and carries no leading or trailing whitespace; in general
str.replace removes every occurrence of the prefix and str.strip trims ends. -/
theorem derive_filename_amended (key_url : Str) (idx : Nat)
    (hfind : pyFind testnetSeg key_url = some idx)
    (hno : pyFind (key_url.take (idx + testnetSeg.length))
        (key_url.drop (idx + testnetSeg.length)) = none)
    (hstrip : pyStrip (key_url.drop (idx + testnetSeg.length))
        = key_url.drop (idx + testnetSeg.length)) :
    deriveLocalFilename key_url
      = some (key_url.drop (idx + testnetSeg.length)) := by
  simp only [deriveLocalFilename, hfind]
  have hlenseg : testnetSeg.length = 14 := by decide
  have hbound : idx + testnetSeg.length ≤ key_url.length := by
    have hpre := pyFind_some_isPrefixOf testnetSeg key_url idx hfind
    have hle := (List.isPrefixOf_iff_prefix.mp hpre).length_le
    rw [List.length_drop] at hle
    omega
  have hne : key_url.take (idx + testnetSeg.length) ≠ [] := by
    intro hcontra
    have : (key_url.take (idx + testnetSeg.length)).length = 0 := by
      rw [hcontra]; rfl
    rw [List.length_take] at this
    omega
  have heq : pyReplaceDel key_url (key_url.take (idx + testnetSeg.length))
      = key_url.drop (idx + testnetSeg.length) := by
    have h2 := pyReplaceDel_leading (key_url.take (idx + testnetSeg.length))
      (key_url.drop (idx + testnetSeg.length)) hne hno
    rwa [List.take_append_drop] at h2
  rw [heq, hstrip]

/-- Witness for C9's amended theorem: a clean key maps to the remainder after
the network-name segment. -/
theorem derive_filename_amended_witness :
    deriveLocalFilename ("u/TEST_NET_NAME/abc".toList) = some ("abc".toList) := by
  have h := derive_filename_amended ("u/TEST_NET_NAME/abc".toList) 2
    (by decide) (by decide) (by decide)
  rw [h]
  decide

/-! ## Trace lemmas about run() -/

/-- Every event of a run started at pass i belongs to pass i or a later one. -/
theorem runLoop_iter_ge (script : Nat → IterScript) :
    ∀ fuel i e, e ∈ (runLoop script fuel i).2 → i ≤ e.iterOf := by
  intro fuel
  induction fuel with
  | zero => intro i e h; simp [runLoop] at h
  | succ n ih =>
    intro i e h
    have step : ∀ e, e ∈ (runLoop script n (i + 1)).2 → i ≤ e.iterOf := by
      intro e' h'
      have := ih (i + 1) e' h'
      omega
    cases hl1 : (script i).lock1 with
    | terminate c =>
      simp only [runLoop, hl1, List.mem_singleton] at h
      subst h
      simp [Ev.iterOf]
    | exc =>
      simp only [runLoop, hl1, List.mem_cons] at h
      rcases h with rfl | h
      · simp [Ev.iterOf]
      · exact step e h
    | val b =>
      cases b with
      | true =>
        simp only [runLoop, hl1, List.mem_cons] at h
        rcases h with rfl | h
        · simp [Ev.iterOf]
        · exact step e h
      | false =>
        cases hsn : (script i).snap with
        | terminate c =>
          simp only [runLoop, hl1, hsn, List.mem_cons, List.mem_singleton, List.not_mem_nil, or_false] at h
          rcases h with rfl | rfl <;> simp [Ev.iterOf]
        | exc =>
          simp only [runLoop, hl1, hsn, List.mem_cons] at h
          rcases h with rfl | rfl | h
          · simp [Ev.iterOf]
          · simp [Ev.iterOf]
          · exact step e h
        | val a =>
          cases hl2 : (script i).lock2 with
          | terminate c =>
            simp only [runLoop, hl1, hsn, hl2, List.mem_cons,
              List.mem_singleton, List.not_mem_nil, or_false] at h
            rcases h with rfl | rfl | rfl <;> simp [Ev.iterOf]
          | exc =>
            simp only [runLoop, hl1, hsn, hl2, List.mem_cons] at h
            rcases h with rfl | rfl | rfl | h
            · simp [Ev.iterOf]
            · simp [Ev.iterOf]
            · simp [Ev.iterOf]
            · exact step e h
          | val b2 =>
            cases b2 with
            | true =>
              simp only [runLoop, hl1, hsn, hl2, List.mem_cons] at h
              rcases h with rfl | rfl | rfl | h
              · simp [Ev.iterOf]
              · simp [Ev.iterOf]
              · simp [Ev.iterOf]
              · exact step e h
            | false =>
              cases hd : (script i).delta with
              | val a2 =>
                simp only [runLoop, hl1, hsn, hl2, hd, List.mem_cons,
                  List.mem_singleton, List.not_mem_nil, or_false] at h
                rcases h with rfl | rfl | rfl | rfl <;> simp [Ev.iterOf]
              | exc =>
                simp only [runLoop, hl1, hsn, hl2, hd, List.mem_cons] at h
                rcases h with rfl | rfl | rfl | rfl | h
                · simp [Ev.iterOf]
                · simp [Ev.iterOf]
                · simp [Ev.iterOf]
                · simp [Ev.iterOf]
                · exact step e h
              | terminate c =>
                simp only [runLoop, hl1, hsn, hl2, hd, List.mem_cons,
                  List.mem_singleton, List.not_mem_nil, or_false] at h
                rcases h with rfl | rfl | rfl | rfl <;> simp [Ev.iterOf]

/-- A run with fuel left always records the first lock check of its starting
pass. -/
theorem runLoop_head_lock1 (script : Nat → IterScript) (fuel i : Nat)
    (hf : 0 < fuel) :
    ∃ r, Ev.lock1Ev i r ∈ (runLoop script fuel i).2 := by
  cases fuel with
  | zero => omega
  | succ n =>
    cases hl1 : (script i).lock1 with
    | terminate c => exact ⟨.terminate c, by simp [runLoop, hl1]⟩
    | exc => exact ⟨.exc, by simp [runLoop, hl1]⟩
    | val b =>
      cases b with
      | true => exact ⟨.val true, by simp [runLoop, hl1]⟩
      | false =>
        refine ⟨.val false, ?_⟩
        cases hsn : (script i).snap with
        | terminate c => simp [runLoop, hl1, hsn]
        | exc => simp [runLoop, hl1, hsn]
        | val a =>
          cases hl2 : (script i).lock2 with
          | terminate c => simp [runLoop, hl1, hsn, hl2]
          | exc => simp [runLoop, hl1, hsn, hl2]
          | val b2 =>
            cases b2 with
            | true => simp [runLoop, hl1, hsn, hl2]
            | false =>
              cases hd : (script i).delta with
              | val a2 => simp [runLoop, hl1, hsn, hl2, hd]
              | exc => simp [runLoop, hl1, hsn, hl2, hd]
              | terminate c => simp [runLoop, hl1, hsn, hl2, hd]

/-! ## C7: the lock re-check gates the delta phase -/

/-- The generalised C7 statement over any starting pass: a pass whose lock
re-check after the snapshot download came back locked never starts the
state-delta download, and the run either ran out of fuel or re-entered the
loop with a fresh first lock check on the next pass. -/
theorem runLoop_recheck_gates_delta (script : Nat → IterScript) :
    ∀ fuel i0 i, Ev.lock2Ev i (.val true) ∈ (runLoop script fuel i0).2 →
      Ev.deltaEv i ∉ (runLoop script fuel i0).2
      ∧ ((runLoop script fuel i0).1 = none
          ∨ ∃ r, Ev.lock1Ev (i + 1) r ∈ (runLoop script fuel i0).2) := by
  intro fuel
  induction fuel with
  | zero => intro i0 i h; simp [runLoop] at h
  | succ n ih =>
    intro i0 i h
    cases hl1 : (script i0).lock1 with
    | terminate c => simp [runLoop, hl1] at h
    | exc =>
      simp only [runLoop, hl1, List.mem_cons] at h
      rcases h with h | h
      · cases h
      · obtain ⟨hnot, hres⟩ := ih (i0 + 1) i h
        have hge := runLoop_iter_ge script n (i0 + 1) _ h
        constructor
        · simp only [runLoop, hl1, List.mem_cons]
          rintro (hcontra | hcontra)
          · cases hcontra
          · exact hnot hcontra
        · rcases hres with hres | ⟨r, hr⟩
          · exact Or.inl (by simp [runLoop, hl1, hres])
          · exact Or.inr ⟨r, by simp only [runLoop, hl1, List.mem_cons]; exact Or.inr hr⟩
    | val b =>
      cases b with
      | true =>
        simp only [runLoop, hl1, List.mem_cons] at h
        rcases h with h | h
        · cases h
        · obtain ⟨hnot, hres⟩ := ih (i0 + 1) i h
          constructor
          · simp only [runLoop, hl1, List.mem_cons]
            rintro (hcontra | hcontra)
            · cases hcontra
            · exact hnot hcontra
          · rcases hres with hres | ⟨r, hr⟩
            · exact Or.inl (by simp [runLoop, hl1, hres])
            · exact Or.inr
                ⟨r, by simp only [runLoop, hl1, List.mem_cons]; exact Or.inr hr⟩
      | false =>
        cases hsn : (script i0).snap with
        | terminate c =>
          simp only [runLoop, hl1, hsn, List.mem_cons, List.mem_singleton,
            List.not_mem_nil, or_false] at h
          rcases h with h | h <;> cases h
        | exc =>
          simp only [runLoop, hl1, hsn, List.mem_cons] at h
          rcases h with h | h | h
          · cases h
          · cases h
          · obtain ⟨hnot, hres⟩ := ih (i0 + 1) i h
            constructor
            · simp only [runLoop, hl1, hsn, List.mem_cons]
              rintro (hcontra | hcontra | hcontra)
              · cases hcontra
              · cases hcontra
              · exact hnot hcontra
            · rcases hres with hres | ⟨r, hr⟩
              · exact Or.inl (by simp [runLoop, hl1, hsn, hres])
              · exact Or.inr
                  ⟨r, by
                    simp only [runLoop, hl1, hsn, List.mem_cons]
                    exact Or.inr (Or.inr hr)⟩
        | val a =>
          cases hl2 : (script i0).lock2 with
          | terminate c =>
            simp only [runLoop, hl1, hsn, hl2, List.mem_cons, List.mem_singleton,
              List.not_mem_nil, or_false] at h
            rcases h with h | h | h
            · cases h
            · cases h
            · obtain ⟨-, hcontra⟩ := Ev.lock2Ev.inj h
              cases hcontra
          | exc =>
            simp only [runLoop, hl1, hsn, hl2, List.mem_cons] at h
            rcases h with h | h | h | h
            · cases h
            · cases h
            · obtain ⟨-, hcontra⟩ := Ev.lock2Ev.inj h
              cases hcontra
            · obtain ⟨hnot, hres⟩ := ih (i0 + 1) i h
              constructor
              · simp only [runLoop, hl1, hsn, hl2, List.mem_cons]
                rintro (hcontra | hcontra | hcontra | hcontra)
                · cases hcontra
                · cases hcontra
                · cases hcontra
                · exact hnot hcontra
              · rcases hres with hres | ⟨r, hr⟩
                · exact Or.inl (by simp [runLoop, hl1, hsn, hl2, hres])
                · exact Or.inr
                    ⟨r, by
                      simp only [runLoop, hl1, hsn, hl2, List.mem_cons]
                      exact Or.inr (Or.inr (Or.inr hr))⟩
          | val b2 =>
            cases b2 with
            | true =>
              simp only [runLoop, hl1, hsn, hl2, List.mem_cons] at h
              rcases h with h | h | h | h
              · cases h
              · cases h
              · -- this pass's own locked re-check
                obtain ⟨rfl, -⟩ := Ev.lock2Ev.inj h
                constructor
                · simp only [runLoop, hl1, hsn, hl2, List.mem_cons]
                  rintro (hcontra | hcontra | hcontra | hcontra)
                  · cases hcontra
                  · cases hcontra
                  · cases hcontra
                  · have hge := runLoop_iter_ge script n (i + 1) _ hcontra
                    simp only [Ev.iterOf] at hge
                    omega
                · have htr : (runLoop script (n + 1) i).2
                      = Ev.lock1Ev i (.val false) :: Ev.snapEv i
                        :: Ev.lock2Ev i (.val true)
                        :: (runLoop script n (i + 1)).2 := by
                    simp [runLoop, hl1, hsn, hl2]
                  have hres1 : (runLoop script (n + 1) i).1
                      = (runLoop script n (i + 1)).1 := by
                    simp [runLoop, hl1, hsn, hl2]
                  rcases Nat.eq_zero_or_pos n with hn | hn
                  · refine Or.inl ?_
                    rw [hres1, hn]
                    rfl
                  · obtain ⟨r, hr⟩ := runLoop_head_lock1 script n (i + 1) hn
                    refine Or.inr ⟨r, ?_⟩
                    rw [htr]
                    exact List.mem_cons_of_mem _
                      (List.mem_cons_of_mem _ (List.mem_cons_of_mem _ hr))
              · obtain ⟨hnot, hres⟩ := ih (i0 + 1) i h
                constructor
                · simp only [runLoop, hl1, hsn, hl2, List.mem_cons]
                  rintro (hcontra | hcontra | hcontra | hcontra)
                  · cases hcontra
                  · cases hcontra
                  · cases hcontra
                  · exact hnot hcontra
                · rcases hres with hres | ⟨r, hr⟩
                  · exact Or.inl (by simp [runLoop, hl1, hsn, hl2, hres])
                  · exact Or.inr
                      ⟨r, by
                        simp only [runLoop, hl1, hsn, hl2, List.mem_cons]
                        exact Or.inr (Or.inr (Or.inr hr))⟩
            | false =>
              cases hd : (script i0).delta with
              | val a2 =>
                simp only [runLoop, hl1, hsn, hl2, hd, List.mem_cons,
                  List.mem_singleton, List.not_mem_nil, or_false] at h
                rcases h with h | h | h | h
                · cases h
                · cases h
                · obtain ⟨-, hcontra⟩ := Ev.lock2Ev.inj h
                  cases hcontra
                · cases h
              | exc =>
                simp only [runLoop, hl1, hsn, hl2, hd, List.mem_cons] at h
                rcases h with h | h | h | h | h
                · cases h
                · cases h
                · obtain ⟨-, hcontra⟩ := Ev.lock2Ev.inj h
                  cases hcontra
                · cases h
                · obtain ⟨hnot, hres⟩ := ih (i0 + 1) i h
                  have hge := runLoop_iter_ge script n (i0 + 1) _ h
                  constructor
                  · simp only [runLoop, hl1, hsn, hl2, hd, List.mem_cons]
                    rintro (hcontra | hcontra | hcontra | hcontra | hcontra)
                    · cases hcontra
                    · cases hcontra
                    · cases hcontra
                    · obtain rfl := Ev.deltaEv.inj hcontra
                      simp only [Ev.iterOf] at hge
                      omega
                    · exact hnot hcontra
                  · rcases hres with hres | ⟨r, hr⟩
                    · exact Or.inl (by simp [runLoop, hl1, hsn, hl2, hd, hres])
                    · exact Or.inr
                        ⟨r, by
                          simp only [runLoop, hl1, hsn, hl2, hd, List.mem_cons]
                          exact Or.inr (Or.inr (Or.inr (Or.inr hr)))⟩
              | terminate c =>
                simp only [runLoop, hl1, hsn, hl2, hd, List.mem_cons,
                  List.mem_singleton, List.not_mem_nil, or_false] at h
                rcases h with h | h | h | h
                · cases h
                · cases h
                · obtain ⟨-, hcontra⟩ := Ev.lock2Ev.inj h
                  cases hcontra
                · cases h

/-- C7: whenever the lock re-check between the snapshot and delta phases
reports locked in some pass, the state-delta download is never entered in
that pass, and the whole phase sequence restarts from the beginning: the run
either spins on (fuel exhausted) or records a fresh first lock check of the
next pass. -/
theorem recheck_gates_delta (script : Nat → IterScript) (fuel i : Nat)
    (hlocked : Ev.lock2Ev i (.val true) ∈ (run script fuel).2) :
    Ev.deltaEv i ∉ (run script fuel).2
    ∧ ((run script fuel).1 = none
        ∨ ∃ r, Ev.lock1Ev (i + 1) r ∈ (run script fuel).2) :=
  runLoop_recheck_gates_delta script fuel 0 i hlocked

/-- Witness for C7: a script locked at the re-check of pass 0 and clean in
pass 1 restarts and only then downloads the delta. -/
theorem recheck_gates_delta_witness :
    Ev.deltaEv 0 ∉
      (run (fun i => if i = 0
        then ⟨.val false, .val (), .val true, .val ()⟩
        else ⟨.val false, .val (), .val false, .val ()⟩) 2).2
    ∧ ((run (fun i => if i = 0
        then ⟨.val false, .val (), .val true, .val ()⟩
        else ⟨.val false, .val (), .val false, .val ()⟩) 2).1 = none
      ∨ ∃ r, Ev.lock1Ev 1 r ∈
        (run (fun i => if i = 0
          then ⟨.val false, .val (), .val true, .val ()⟩
          else ⟨.val false, .val (), .val false, .val ()⟩) 2).2) :=
  recheck_gates_delta
    (fun i => if i = 0
      then ⟨.val false, .val (), .val true, .val ()⟩
      else ⟨.val false, .val (), .val false, .val ()⟩) 2 0 (by decide)

/-! ## C3: what an empty listing page actually does -/

/-- A listing script whose single page has no listable entries. -/
def emptyListingPages : List ListingPage :=
  [⟨[], ("false".toList)⟩]

/-- A worker-pool stage that would succeed on any task list. -/
def alwaysOkDl : List Str → PyFlow Unit := fun _ => .val ()

/-- A run whose snapshot-phase listing returns an empty page: the lock is
never held and downloads would succeed. -/
def snapEmptyScript : Nat → IterScript := fun _ =>
  { lock1 := UploadLock (.val 404)
    snap := GetEntirePersistenceFromS3
      (GetAllObjectsFromS3 true true getURL emptyListingPages alwaysOkDl)
    lock2 := UploadLock (.val 404)
    delta := .val () }

/-- A run whose state-delta-phase listing returns an empty page while the
snapshot phase and the archive extraction succeed. -/
def deltaEmptyScript : Nat → IterScript := fun _ =>
  { lock1 := UploadLock (.val 404)
    snap := .val ()
    lock2 := UploadLock (.val 404)
    delta := GetStateDeltaFromS3
      (GetAllObjectsFromS3 true true getURL emptyListingPages alwaysOkDl)
      (.val ()) }

/-- C3 counterexample: an empty snapshot listing does not restart the phase
loop but kills the process with exit status 1 (exit(1) raises SystemExit,
which "except Exception" does not catch), and an empty state-delta listing is
not even surfaced: its error return is discarded and the run finishes with
exit status 0.  Neither phase reacts with the log-pause-re-enter-Idle restart
the claim describes. -/
theorem empty_listing_cex :
    (run snapEmptyScript 3).1 = some 1
    ∧ (run deltaEmptyScript 3).1 = some 0
    ∧ Ev.lock1Ev 1 (UploadLock (.val 404)) ∉ (run snapEmptyScript 3).2 := by
  refine ⟨by decide, by decide, by decide⟩

/-- C3 as amended: a listing page with zero listable entries makes
GetAllObjectsFromS3 return the error code 1; the snapshot-phase caller reacts
by exit(1), terminating the process with status 1 rather than restarting, and
the state-delta-phase caller ignores the return value and proceeds straight
to archive extraction. -/
theorem empty_listing_amended (exT exM : Bool) (url : Str) (t : Str)
    (ps : List ListingPage) (dl : List Str → PyFlow Unit)
    (extractResult : PyFlow Unit) :
    GetAllObjectsFromS3 exT exM url (⟨[], t⟩ :: ps) dl = .val 1
    ∧ GetEntirePersistenceFromS3 (.val 1) = .terminate 1
    ∧ GetStateDeltaFromS3 (.val 1) extractResult = extractResult := by
  refine ⟨?_, rfl, rfl⟩
  simp [GetAllObjectsFromS3, GetAllObjectsLoop]

end DownloadIncrDB
